import Mathlib

/-!
Verification of the data-update core of the air-quality model-selection
repository (`src/air_quality/data_management.py`) against its
natural-language specification.

The Python module is shallowly embedded as follows.

* A pandas dataframe holding one logical snapshot (pollutants, historical
  weather, or weather forecast) is a `List Rcd`: one record per row, with
  the category column (`location` or `Polluant`), the `Datetime` column
  (hourly civil timestamps, embedded as a calendar tuple), and one
  representative numeric value column.  pandas applies interpolation and
  the error-value fixes column by column, so each numeric column behaves
  exactly as the single modelled column; NaN is `Option.none` and numeric
  values are rationals.
* Raw Geod Air backup files (one per pollutant and date) are `List RawRow`
  values keyed by `(pollutant, date)` in an association-list cache; a
  missing key is a missing file (reading it raises in Python, which the
  embedding surfaces as `Option.none`).
* External HTTP traffic is an oracle (`FetchOracle`); each call made by the
  code increments an explicit `apiCalls` counter so that claims about "zero
  external calls" are statements about the final counter.
* Dates in the Python code travel as `YYYY-MM-DD` strings; the embedding
  uses the structured `Date` type (the string format is a bijective
  rendering of it, and the pollutant names contain no space, so the
  `"Polluant date"` concatenation trick of the source is the pair
  `(pollutant, date)` here).
-/

namespace AirQuality

attribute [local semireducible] Rat.add Rat.mul Rat.sub Rat.inv

/-- Kernel-computable decidability of the code-point order on strings (the
order pandas and Python use on category names); the default core instance
(`String.ltb` over byte iterators) does not reduce inside the kernel, so
concrete evaluations below use the character-list order instead. -/
instance (priority := 2000) strDecLt : DecidableRel (fun a b : String => a < b) :=
  fun a b => decidable_of_iff (a.toList < b.toList) String.lt_iff_toList_lt.symm

/-- Kernel-computable decidability of the code-point order on strings. -/
instance (priority := 2000) strDecLe : DecidableRel (fun a b : String => a ≤ b) :=
  fun a b => decidable_of_iff (a.toList ≤ b.toList) String.le_iff_toList_le.symm

/-- An hourly civil timestamp (the `Datetime` column): year, month, day,
hour in the fixed `Europe/Paris` civil timezone. -/
structure Timestamp where
  year : Nat
  month : Nat
  day : Nat
  hour : Nat
deriving DecidableEq

/-- A calendar date, the `.dt.date` projection of a `Datetime`. -/
structure Date where
  year : Nat
  month : Nat
  day : Nat
deriving DecidableEq

/-- `Datetime.dt.date`: forget the hour. -/
def Timestamp.date (t : Timestamp) : Date := ⟨t.year, t.month, t.day⟩

/-- Lexicographic sort key of a timestamp, mirroring chronological order of
real `Datetime` values. -/
abbrev TsKey := Lex (Nat × Lex (Nat × Lex (Nat × Nat)))

/-- The chronological key of a timestamp. -/
def Timestamp.key (t : Timestamp) : TsKey :=
  toLex (t.year, toLex (t.month, toLex (t.day, t.hour)))

/-- One row of a snapshot dataframe: category (`location` or `Polluant`),
timestamp, and the (possibly NaN) numeric value. -/
structure Rcd where
  cat : String
  ts : Timestamp
  val : Option ℚ
deriving DecidableEq

/-- Sort key of a dataframe row: `(category, Datetime)` lexicographically,
the key used by every `sort_values` / `pivot_table` in the module.  The
category is keyed by its character list: the code-point order pandas uses,
in a form the kernel can evaluate. -/
abbrev RKey := Lex (List Char × TsKey)

/-- The `(category, Datetime)` sort key of a row. -/
def Rcd.key (r : Rcd) : RKey := toLex (r.cat.toList, r.ts.key)

/-- `a` sorts no later than `b` by `(category, Datetime)`. -/
def keyLe (a b : Rcd) : Prop := a.key ≤ b.key

/-- `a` sorts strictly before `b` by `(category, Datetime)`. -/
def keyLt (a b : Rcd) : Prop := a.key < b.key

instance : DecidableRel keyLe := fun a b => inferInstanceAs (Decidable (a.key ≤ b.key))

instance : DecidableRel keyLt := fun a b => inferInstanceAs (Decidable (a.key < b.key))

instance : IsTotal Rcd keyLe := ⟨fun a b => le_total a.key b.key⟩

instance : IsTrans Rcd keyLe := ⟨fun _ _ _ h1 h2 => le_trans h1 h2⟩

/-- Chronological comparison of timestamps. -/
def tsLe (a b : Timestamp) : Prop := a.key ≤ b.key

/-- Strict chronological comparison of timestamps. -/
def tsLt (a b : Timestamp) : Prop := a.key < b.key

instance : DecidableRel tsLe := fun a b => inferInstanceAs (Decidable (a.key ≤ b.key))

instance : DecidableRel tsLt := fun a b => inferInstanceAs (Decidable (a.key < b.key))

instance : IsTotal Timestamp tsLe := ⟨fun a b => le_total a.key b.key⟩

instance : IsTrans Timestamp tsLe := ⟨fun _ _ _ h1 h2 => le_trans h1 h2⟩

/-- `sort_values(by = [category, Datetime])`, ascending in both. -/
def sort_records (l : List Rcd) : List Rcd := List.insertionSort keyLe l

/-- Ascending sort of a list of timestamps. -/
def sort_timestamps (l : List Timestamp) : List Timestamp := List.insertionSort tsLe l

/-- Ascending sort of a list of category names (pandas sorts strings by
code points, as Lean does). -/
def sort_categories (l : List String) : List String := List.insertionSort (· ≤ ·) l

/-- Mean aggregation of pandas (`aggfunc = mean` with NaN skipped): NaN when
no value is known, otherwise the arithmetic mean of the known values. -/
def aggMean (vals : List (Option ℚ)) : Option ℚ :=
  let known := vals.filterMap id
  if known.length = 0 then none else some (known.sum / known.length)

/-- The aggregated value of the pivot cell `(c, t)` of dataframe `df`. -/
def value_at (df : List Rcd) (c : String) (t : Timestamp) : Option ℚ :=
  aggMean ((df.filter (fun r => r.cat == c && r.ts == t)).map Rcd.val)

/-- The distinct categories of `df` in ascending order: the iteration order
of `df.index.get_level_values(0).unique()` after the sorting pivot of
`fill_missing_values` (source lines 271-279). -/
def category_order (df : List Rcd) : List String :=
  sort_categories (df.map Rcd.cat).dedup

/-- The distinct timestamps of category `c` in ascending order: the inner
index of the sorted pivot restricted to `c` (source lines 273-281). -/
def cat_timestamps (df : List Rcd) (c : String) : List Timestamp :=
  sort_timestamps ((df.filter (fun r => r.cat == c)).map Rcd.ts).dedup

/-- The first known value of a series together with its offset. -/
def first_known : List (Option ℚ) → Option (Nat × ℚ)
  | [] => none
  | some v :: _ => some (0, v)
  | none :: rest => (first_known rest).map (fun p => (p.1 + 1, p.2))

/-- The last known value strictly before position `i`, with its position. -/
def prev_known (vals : List (Option ℚ)) : Nat → Option (Nat × ℚ)
  | 0 => none
  | j + 1 =>
    match vals[j]? with
    | some (some v) => some (j, v)
    | _ => prev_known vals j

/-- The first known value strictly after position `i`, with its position. -/
def next_known (vals : List (Option ℚ)) (i : Nat) : Option (Nat × ℚ) :=
  (first_known (vals.drop (i + 1))).map (fun p => (i + 1 + p.1, p.2))

/-- One output cell of pandas `interpolate()` (method `linear`, default
`limit_direction = forward`): known values are kept; a NaN with a known
value on both sides is linearly interpolated over positions; a NaN after
the last known value is set to that value; a NaN before the first known
value stays NaN. -/
def interpAt (vals : List (Option ℚ)) (i : Nat) : Option ℚ :=
  match vals[i]? with
  | some (some v) => some v
  | some none =>
    match prev_known vals i, next_known vals i with
    | some jv, some kv =>
      some (jv.2 + (kv.2 - jv.2) * ((i : ℚ) - (jv.1 : ℚ)) / ((kv.1 : ℚ) - (jv.1 : ℚ)))
    | some jv, none => some jv.2
    | none, _ => none
  | none => none

/-- One output cell of pandas `interpolate(method = pad)`: forward fill
from the last known value, NaN when there is none. -/
def padAt (vals : List (Option ℚ)) (i : Nat) : Option ℚ :=
  match vals[i]? with
  | some (some v) => some v
  | some none => (prev_known vals i).map (fun p => p.2)
  | none => none

/-- `category_df.interpolate(inplace = True)` on the value series. -/
def interpolate_linear (vals : List (Option ℚ)) : List (Option ℚ) :=
  (List.range vals.length).map (interpAt vals)

/-- `category_df.interpolate(method = pad, inplace = True)`. -/
def interpolate_pad (vals : List (Option ℚ)) : List (Option ℚ) :=
  (List.range vals.length).map (padAt vals)

/-- The per-category fill of `DataManager.fill_missing_values` (source lines
283-290): linear interpolation when NaN is present, then a pad pass when
NaN is still present. -/
def fillVals (vals : List (Option ℚ)) : List (Option ℚ) :=
  if vals.any (fun v => v.isNone) then
    if (interpolate_linear vals).any (fun v => v.isNone) then
      interpolate_pad (interpolate_linear vals)
    else interpolate_linear vals
  else vals

/-- The filled rows of one category: its sorted distinct timestamps zipped
with the interpolated-and-padded value series (the per-iteration body of the
category loop, source lines 279-297). -/
def fill_block (df : List Rcd) (c : String) : List Rcd :=
  let ts := cat_timestamps df c
  List.zipWith (fun t v => Rcd.mk c t v) ts (fillVals (ts.map (fun t => value_at df c t)))

/-- `DataManager.fill_missing_values` (source lines 267-303): pivot on
`(category, Datetime)` (sorting the index and mean-aggregating duplicate
keys), interpolate then pad each category series, and concatenate the
categories back in pivot (ascending) order. -/
def fill_missing_values (df : List Rcd) : List Rcd :=
  (category_order df).flatMap (fill_block df)

theorem length_interpolate_linear (v : List (Option ℚ)) :
    (interpolate_linear v).length = v.length := by
  simp [interpolate_linear]

theorem length_interpolate_pad (v : List (Option ℚ)) :
    (interpolate_pad v).length = v.length := by
  simp [interpolate_pad]

theorem length_fillVals (v : List (Option ℚ)) : (fillVals v).length = v.length := by
  unfold fillVals
  split
  · split
    · simp [length_interpolate_pad, length_interpolate_linear]
    · simp [length_interpolate_linear]
  · rfl

theorem Timestamp.key_inj {a b : Timestamp} (h : a.key = b.key) : a = b := by
  cases a; cases b
  simp only [Timestamp.key, toLex_inj, Prod.mk.injEq] at h
  simp_all

theorem length_fill_block (df : List Rcd) (c : String) :
    (fill_block df c).length = (cat_timestamps df c).length := by
  simp [fill_block, List.length_zipWith, length_fillVals]

theorem fill_block_getElem (df : List Rcd) (c : String) (i : Nat)
    (h : i < (fill_block df c).length) :
    (fill_block df c)[i] =
      Rcd.mk c ((cat_timestamps df c).get ⟨i, by rwa [length_fill_block] at h⟩)
        ((fillVals ((cat_timestamps df c).map (fun t => value_at df c t))).get
          ⟨i, by rw [length_fillVals, List.length_map]; rwa [length_fill_block] at h⟩) := by
  simp [fill_block, List.getElem_zipWith]

theorem mem_fill_block_cat {df : List Rcd} {c : String} {r : Rcd}
    (h : r ∈ fill_block df c) : r.cat = c := by
  rcases List.mem_iff_getElem.mp h with ⟨i, hi, rfl⟩
  rw [fill_block_getElem]

theorem cat_timestamps_pairwise (df : List Rcd) (c : String) :
    List.Pairwise tsLt (cat_timestamps df c) := by
  have hs : List.Sorted tsLe (cat_timestamps df c) :=
    List.sorted_insertionSort tsLe _
  have hn : (cat_timestamps df c).Nodup :=
    (List.perm_insertionSort tsLe _).nodup_iff.mpr (List.nodup_dedup _)
  exact (hs.and hn).imp (fun h => lt_of_le_of_ne h.1 (fun he => h.2 (Timestamp.key_inj he)))

theorem category_order_pairwise (df : List Rcd) :
    List.Pairwise (fun a b : String => a < b) (category_order df) := by
  have hs : List.Sorted (fun a b : String => a ≤ b) (category_order df) :=
    List.sorted_insertionSort _ _
  have hn : (category_order df).Nodup :=
    (List.perm_insertionSort _ _).nodup_iff.mpr (List.nodup_dedup _)
  exact (hs.and hn).imp (fun h => lt_of_le_of_ne h.1 h.2)

theorem keyLt_of_same_cat {a b : Rcd} (hc : a.cat = b.cat) (ht : tsLt a.ts b.ts) :
    keyLt a b := by
  rw [keyLt, Rcd.key, Rcd.key, Prod.Lex.lt_iff]
  exact Or.inr ⟨congrArg String.toList hc, ht⟩

theorem keyLt_of_cat_lt {a b : Rcd} (hc : a.cat < b.cat) : keyLt a b := by
  rw [keyLt, Rcd.key, Rcd.key, Prod.Lex.lt_iff]
  exact Or.inl (String.lt_iff_toList_lt.mp hc)

theorem fill_block_pairwise (df : List Rcd) (c : String) :
    List.Pairwise keyLt (fill_block df c) := by
  rw [List.pairwise_iff_getElem]
  intro i j hi hj hij
  rw [fill_block_getElem df c i hi, fill_block_getElem df c j hj]
  refine keyLt_of_same_cat rfl ?_
  have hp := (List.pairwise_iff_getElem.mp (cat_timestamps_pairwise df c))
  exact hp i j (by rwa [length_fill_block] at hi) (by rwa [length_fill_block] at hj) hij

theorem fill_missing_values_pairwise (df : List Rcd) :
    List.Pairwise keyLt (fill_missing_values df) := by
  rw [fill_missing_values]
  suffices h : ∀ cs : List String, List.Pairwise (fun a b : String => a < b) cs →
      List.Pairwise keyLt (cs.flatMap (fill_block df)) from
    h _ (category_order_pairwise df)
  intro cs hcs
  induction cs with
  | nil => simp
  | cons c cs ih =>
    rw [List.flatMap_cons, List.pairwise_append]
    rcases List.pairwise_cons.mp hcs with ⟨hhead, htail⟩
    refine ⟨fill_block_pairwise df c, ih htail, ?_⟩
    intro a ha b hb
    rcases List.mem_flatMap.mp hb with ⟨c2, hc2, hbc2⟩
    have h1 : a.cat = c := mem_fill_block_cat ha
    have h2 : b.cat = c2 := mem_fill_block_cat hbc2
    exact keyLt_of_cat_lt (by rw [h1, h2]; exact hhead c2 hc2)

theorem fill_missing_values_sorted (df : List Rcd) :
    List.Sorted keyLe (fill_missing_values df) :=
  (fill_missing_values_pairwise df).imp (fun h => le_of_lt h)

theorem fill_missing_values_keys_nodup (df : List Rcd) :
    ((fill_missing_values df).map (fun r => (r.cat, r.ts))).Nodup := by
  rw [List.Nodup, List.pairwise_map]
  refine (fill_missing_values_pairwise df).imp ?_
  intro a b hlt he
  have : a.key = b.key := by
    rw [Rcd.key, Rcd.key]
    rw [Prod.mk.injEq] at he
    rw [he.1, he.2]
  exact absurd this (ne_of_lt hlt)

theorem aggMean_eq_none {l : List (Option ℚ)} (h : ∀ v ∈ l, v = none) :
    aggMean l = none := by
  have : l.filterMap id = [] := List.filterMap_eq_nil_iff.mpr (fun a ha => h a ha)
  simp [aggMean, this]

theorem prev_known_eq_none (v : List (Option ℚ)) :
    ∀ i, (∀ j, j < i → v[j]? = some none) → prev_known v i = none := by
  intro i
  induction i with
  | zero => intro _; rfl
  | succ j ih =>
    intro h
    have hj : v[j]? = some none := h j (Nat.lt_succ_self j)
    simp only [prev_known, hj]
    exact ih (fun k hk => h k (Nat.lt_trans hk (Nat.lt_succ_self j)))

theorem interpAt_eq_none {v : List (Option ℚ)} {i : Nat}
    (hi : v[i]? = some none) (hp : prev_known v i = none) : interpAt v i = none := by
  simp [interpAt, hi, hp]

theorem padAt_eq_none {v : List (Option ℚ)} {i : Nat}
    (hi : v[i]? = some none) (hp : prev_known v i = none) : padAt v i = none := by
  simp [padAt, hi, hp]

theorem interpolate_linear_getElem_none {v : List (Option ℚ)} {i : Nat}
    (hlen : i < v.length) (h : ∀ j, j ≤ i → v[j]? = some none) :
    (interpolate_linear v)[i]? = some none := by
  rw [interpolate_linear, List.getElem?_map, List.getElem?_range hlen]
  simp only [Option.map_some']
  rw [interpAt_eq_none (h i (le_refl i))
    (prev_known_eq_none v i (fun j hj => h j (le_of_lt hj)))]

theorem interpolate_pad_getElem_none {v : List (Option ℚ)} {i : Nat}
    (hlen : i < v.length) (h : ∀ j, j ≤ i → v[j]? = some none) :
    (interpolate_pad v)[i]? = some none := by
  rw [interpolate_pad, List.getElem?_map, List.getElem?_range hlen]
  simp only [Option.map_some']
  rw [padAt_eq_none (h i (le_refl i))
    (prev_known_eq_none v i (fun j hj => h j (le_of_lt hj)))]

theorem any_isNone_of_getElem {v : List (Option ℚ)} {i : Nat}
    (h : v[i]? = some none) : v.any (fun x => x.isNone) = true := by
  rcases List.getElem?_eq_some_iff.mp h with ⟨hl, hv⟩
  exact List.any_eq_true.mpr ⟨v[i], List.getElem_mem hl, by rw [hv]; rfl⟩

/-- A cell with no known value at or before it is left NaN by the
interpolate-then-pad fill: both passes only draw on earlier known values. -/
theorem fillVals_getElem_none {v : List (Option ℚ)} {i : Nat}
    (hlen : i < v.length) (h : ∀ j, j ≤ i → v[j]? = some none) :
    (fillVals v)[i]? = some none := by
  have hany : v.any (fun x => x.isNone) = true := any_isNone_of_getElem (h i (le_refl i))
  have h1 : ∀ j, j ≤ i → (interpolate_linear v)[j]? = some none := fun j hj =>
    interpolate_linear_getElem_none (lt_of_le_of_lt hj hlen)
      (fun k hk => h k (le_trans hk hj))
  have hany1 : (interpolate_linear v).any (fun x => x.isNone) = true :=
    any_isNone_of_getElem (h1 i (le_refl i))
  rw [fillVals, if_pos hany, if_pos hany1]
  exact interpolate_pad_getElem_none (by rwa [length_interpolate_linear]) h1

theorem tsLe_refl (t : Timestamp) : tsLe t t := le_refl t.key

/-- Leading-edge gaps survive `fill_missing_values`: if every row of `df` in
category `c` timestamped at or before `t` has a NaN value, then every output
row at `(c, t)` still has a NaN value. -/
theorem fill_missing_values_leading_none (df : List Rcd) (c : String) (t : Timestamp)
    (h : ∀ r ∈ df, r.cat = c → tsLe r.ts t → r.val = none) :
    ∀ r ∈ fill_missing_values df, r.cat = c → r.ts = t → r.val = none := by
  intro r hr hcat hts
  rcases List.mem_flatMap.mp hr with ⟨c2, _, hrc2⟩
  have hc2 : c2 = c := by rw [← mem_fill_block_cat hrc2, hcat]
  subst hc2
  rcases List.mem_iff_getElem.mp hrc2 with ⟨i, hi, hget⟩
  rw [fill_block_getElem] at hget
  set ts := cat_timestamps df c2 with hts_def
  have hilen : i < ts.length := by rwa [length_fill_block] at hi
  have htsi : ts[i] = t := by rw [← hts]; rw [← hget]; rfl
  have hvals : ∀ j, j ≤ i → (ts.map (fun u => value_at df c2 u))[j]? = some none := by
    intro j hj
    have hjlen : j < ts.length := lt_of_le_of_lt hj hilen
    rw [List.getElem?_map, List.getElem?_eq_getElem hjlen]
    simp only [Option.map_some']
    have hle : tsLe ts[j] t := by
      rcases lt_or_eq_of_le hj with hlt | heq
      · have := (List.pairwise_iff_getElem.mp (cat_timestamps_pairwise df c2)) j i
          hjlen hilen hlt
        rw [← htsi]
        exact le_of_lt this
      · subst heq; rw [htsi]; exact tsLe_refl t
    have : value_at df c2 ts[j] = none := by
      apply aggMean_eq_none
      intro v hv
      rcases List.mem_map.mp hv with ⟨r2, hr2, rfl⟩
      rcases List.mem_filter.mp hr2 with ⟨hr2df, hr2p⟩
      rw [Bool.and_eq_true, beq_iff_eq, beq_iff_eq] at hr2p
      exact h r2 hr2df hr2p.1 (by rw [hr2p.2]; exact hle)
    rw [this]
  have : (fillVals (ts.map (fun u => value_at df c2 u)))[i]? = some none :=
    fillVals_getElem_none (by rwa [List.length_map]) hvals
  have hvali : (fillVals (ts.map (fun u => value_at df c2 u))).get
      ⟨i, by rw [length_fillVals, List.length_map]; exact hilen⟩ = none := by
    rcases List.getElem?_eq_some_iff.mp this with ⟨_, hv⟩
    exact hv
  rw [← hget]
  exact hvali

/-! ## Calendar arithmetic (pandas `Timedelta` additions on civil dates) -/

/-- Gregorian leap-year test. -/
def is_leap (y : Nat) : Bool := y % 4 == 0 && (y % 100 != 0 || y % 400 == 0)

/-- Number of days of a civil month. -/
def days_in_month (y m : Nat) : Nat :=
  if m = 2 then (if is_leap y then 29 else 28)
  else if m = 4 ∨ m = 6 ∨ m = 9 ∨ m = 11 then 30 else 31

/-- `date + Timedelta(1, day)` on the calendar. -/
def next_day (d : Date) : Date :=
  if d.day < days_in_month d.year d.month then ⟨d.year, d.month, d.day + 1⟩
  else if d.month < 12 then ⟨d.year, d.month + 1, 1⟩
  else ⟨d.year + 1, 1, 1⟩

/-- `date - Timedelta(1, day)` on the calendar. -/
def prev_day (d : Date) : Date :=
  if 1 < d.day then ⟨d.year, d.month, d.day - 1⟩
  else if 1 < d.month then ⟨d.year, d.month - 1, days_in_month d.year (d.month - 1)⟩
  else ⟨d.year - 1, 12, 31⟩

/-- `Datetime + Timedelta(1, hour)` with day rollover. -/
def add_one_hour (t : Timestamp) : Timestamp :=
  if t.hour < 23 then ⟨t.year, t.month, t.day, t.hour + 1⟩
  else
    ⟨(next_day t.date).year, (next_day t.date).month, (next_day t.date).day, 0⟩

/-- `Datetime + Timedelta(1, day)`: the hour is kept, the date advances. -/
def add_one_day (t : Timestamp) : Timestamp :=
  ⟨(next_day t.date).year, (next_day t.date).month, (next_day t.date).day, t.hour⟩

/-! ## Weather-forecast merge (`WeatherForecastDataManager`) -/

/-- `drop_duplicates(subset = [location, Datetime], keep = last)` (source
lines 404-407): a row survives exactly when no later row carries the same
`(category, Datetime)` key. -/
def drop_duplicates_keep_last : List Rcd → List Rcd
  | [] => []
  | r :: rest =>
    if rest.any (fun s => s.cat == r.cat && s.ts == r.ts) then
      drop_duplicates_keep_last rest
    else r :: drop_duplicates_keep_last rest

/-- The intermediate forecast ordering of source line 409:
`sort_values(by = [location, Datetime], ascending = [False, True])` —
location descending, `Datetime` ascending. -/
def forecastSortRel (a b : Rcd) : Prop :=
  b.cat < a.cat ∨ (a.cat = b.cat ∧ tsLe a.ts b.ts)

instance : DecidableRel forecastSortRel := fun a b =>
  inferInstanceAs (Decidable (b.cat < a.cat ∨ (a.cat = b.cat ∧ tsLe a.ts b.ts)))

/-- The location-descending sort applied by the forecast merge before the
fill step. -/
def forecast_sort (l : List Rcd) : List Rcd := List.insertionSort forecastSortRel l

/-- `WeatherForecastDataManager.merge_fetched_and_current_data` (source
lines 392-417): concatenate current and fetched, deduplicate on
`(location, Datetime)` keeping the newly fetched row, sort (location
descending, `Datetime` ascending), then fill missing values; the result is
what `save_existing_data_df(..., temp = True)` persists. -/
def merge_fetched_and_current_data (fetched current : List Rcd) : List Rcd :=
  fill_missing_values (forecast_sort (drop_duplicates_keep_last (current ++ fetched)))

/-! ## Pollutant merge into the staged snapshot (`AirQualityDataManager`) -/

/-- `drop_duplicates(subset = [Datetime, Polluant], keep = first)` walked
with the set of already-seen keys. -/
def drop_dup_first_aux (seen : List (String × Timestamp)) : List Rcd → List Rcd
  | [] => []
  | r :: rest =>
    if seen.contains (r.cat, r.ts) then drop_dup_first_aux seen rest
    else r :: drop_dup_first_aux ((r.cat, r.ts) :: seen) rest

/-- `AirQualityDataManager.add_processed_fetched_data_to_existing` (source
lines 929-947): concatenate the staged snapshot with the processed fetched
data, deduplicate on `(Datetime, Polluant)` keeping the existing row, and
sort by `(Polluant, Datetime)` ascending. -/
def add_processed_fetched_data_to_existing (existing processed : List Rcd) : List Rcd :=
  sort_records (drop_dup_first_aux [] (existing ++ processed))

/-! ## Historical-weather merge (`HistoricalWeatherDataManager`) -/

/-- Maximum of the `Datetime` column (`existing_data['Datetime'].max()`),
`none` on an empty frame (pandas NaT). -/
def max_ts (l : List Rcd) : Option Timestamp :=
  l.foldl (fun acc r =>
    match acc with
    | none => some r.ts
    | some m => if m.key < r.ts.key then some r.ts else some m) none

/-- Minimum of the `Datetime` column (`new_data['Datetime'].min()`),
`none` on an empty frame (pandas NaT). -/
def min_ts (l : List Rcd) : Option Timestamp :=
  l.foldl (fun acc r =>
    match acc with
    | none => some r.ts
    | some m => if r.ts.key < m.key then some r.ts else some m) none

/-- `HistoricalWeatherDataManager.get_merged_new_and_existing_data` (source
lines 1204-1232) on a staged snapshot and the (possibly missing) backed-up
day: `none` when the backup is missing or when the new data does not begin
exactly one hour after the existing data ends (a NaT on either side also
fails the equality, as in pandas); otherwise the sorted concatenation. -/
def get_merged_new_and_existing_data (staged : List Rcd) (backup : Option (List Rcd)) :
    Option (List Rcd) :=
  match backup with
  | none => none
  | some newData =>
    match max_ts staged, min_ts newData with
    | some lastT, some firstT =>
      if firstT = add_one_hour lastT then some (sort_records (staged ++ newData))
      else none
    | _, _ => none

/-- Mean of the value column over the whole dataframe (NaN skipped),
`df['dwpt'].mean()`. -/
def mean_val (df : List Rcd) : Option ℚ := aggMean (df.map Rcd.val)

/-- `HistoricalWeatherDataManager.fix_error_values` (source lines
1235-1243) on the modelled value column, treated as the dew-point column:
values below −10 are replaced by the column mean (computed, as in pandas,
from the frame before replacement); the analogous relative-humidity clamp
acts on its own column the same way and never touches the row keys. -/
def fix_error_values (df : List Rcd) : List Rcd :=
  df.map (fun r =>
    { r with val := match r.val with
        | none => none
        | some v => if v < -10 then mean_val df else some v })

/-- `HistoricalWeatherDataManager.merge_new_and_existing_data` (source
lines 1246-1270): on a `None` merge result report failure and leave the
staged snapshot untouched; otherwise fill, fix error values, save to the
staged snapshot and report success.  The returned pair is
(update succeeded, staged snapshot after the call). -/
def merge_new_and_existing_data (staged : List Rcd) (backup : Option (List Rcd)) :
    Bool × List Rcd :=
  match get_merged_new_and_existing_data staged backup with
  | none => (false, staged)
  | some merged => (true, fix_error_values (fill_missing_values merged))

/-! ## Pollutant raw files, backup cache and fetch phase
(`AirQualityDataManager`) -/

/-- One row of a raw Geod Air backup file after the column selection of
`clean_columns_pollutants_data`: `Datetime`, `Polluant`, `nom site`,
`valeur brute`. -/
structure RawRow where
  ts : Timestamp
  polluant : String
  site : String
  valeurBrute : Option ℚ
deriving DecidableEq

/-- `POLLUTANT_CODES.keys()` in dict order (source lines 482-490). -/
def POLLUTANTS : List String := ["NO2", "O3", "PM10", "PM2.5", "SO2"]

/-- `STATION_LOCATIONS` (source lines 492-502). -/
def STATION_LOCATIONS (p : String) : List String :=
  if p = "NO2" then
    ["Montpellier Chaptal", "Montpellier Prés d\u0027Arènes",
     "Montpellier St Denis", "Pompignane"]
  else if p = "O3" then ["Montpellier Prés d\u0027Arènes"]
  else if p = "PM10" then ["Montpellier Prés d\u0027Arènes", "Pompignane"]
  else if p = "PM2.5" then ["Montpellier Prés d\u0027Arènes", "Pompignane"]
  else if p = "SO2" then ["MARSEILLE 5 AVENUES"]
  else []

/-- The on-disk backup cache: one parsed file per `(pollutant, date)` key
(the file `{pollutant}_{date}.gz` under `BACKUPS_PATH`). -/
abbrev Cache := List ((String × Date) × List RawRow)

/-- Reading the backup file of `(p, d)`: `none` when the file is absent
(in Python, `pd.read_csv` raises `FileNotFoundError` there). -/
def cache_lookup (cache : Cache) (p : String) (d : Date) : Option (List RawRow) :=
  (cache.find? (fun e => e.1 == (p, d))).map (fun e => e.2)

/-- The external Geod Air service, abstracted: the download-identifier
endpoint per `(date, pollutant)` and the file-download endpoint per
identifier; `none` is any soft failure (non-200 status or unexpected body),
which the source logs and converts to `None`. -/
structure FetchOracle where
  downloadId : Date → String → Option String
  fileContent : String → Option (List RawRow)

/-- The mutable fetch-phase state: the backup cache on disk plus a counter
of external API requests issued (each `get_api_response` call is one). -/
structure FetchState where
  cache : Cache
  apiCalls : Nat
deriving DecidableEq

/-- `AirQualityDataManager.download_file_exists` (source lines 586-587). -/
def download_file_exists (cache : Cache) (d : Date) (p : String) : Bool :=
  (cache_lookup cache p d).isSome

/-- `AirQualityDataManager.get_pollutants_to_request` (source lines
600-609): the tracked pollutants whose backup file is missing. -/
def get_pollutants_to_request (cache : Cache) (d : Date) : List String :=
  POLLUTANTS.filter (fun p => !download_file_exists cache d p)

/-- `AirQualityDataManager.fetch_pollutant_download_ids` (source lines
612-623): one identifier request per listed pollutant, plus — exactly as in
the source — a second identifier request for the pollutants whose first
request succeeded (line 620 calls `fetch_download_id` again); failures are
dropped from the returned dict. -/
def fetch_pollutant_download_ids (o : FetchOracle) (d : Date) :
    List String → FetchState → FetchState × List (String × String)
  | [], st => (st, [])
  | p :: rest, st =>
    match o.downloadId d p with
    | some i =>
      let res := fetch_pollutant_download_ids o d rest
        { st with apiCalls := st.apiCalls + 2 }
      (res.1, (p, i) :: res.2)
    | none =>
      fetch_pollutant_download_ids o d rest { st with apiCalls := st.apiCalls + 1 }

/-- `AirQualityDataManager.fetch_required_pollutant_ids` (source lines
625-628). -/
def fetch_required_pollutant_ids (o : FetchOracle) (d : Date) (st : FetchState) :
    FetchState × List (String × String) :=
  fetch_pollutant_download_ids o d (get_pollutants_to_request st.cache d) st

/-- `AirQualityDataManager.download_file_streams` (source lines 631-639):
one download request per fetched identifier; a successful download is
parsed and saved as the backup file of its `(pollutant, date)` key
(`save_backup`, source lines 594-597). -/
def download_file_streams (o : FetchOracle) (d : Date) :
    List (String × String) → FetchState → FetchState
  | [], st => st
  | (p, i) :: rest, st =>
    match o.fileContent i with
    | some content =>
      download_file_streams o d rest
        { cache := ((p, d), content) :: st.cache, apiCalls := st.apiCalls + 1 }
    | none =>
      download_file_streams o d rest { st with apiCalls := st.apiCalls + 1 }

/-- `AirQualityDataManager.single_fetch_data` (source lines 642-659):
request identifiers for the missing pollutants, download the ready files,
then re-run the identifier fetch for the still-missing pollutants; the
returned dict of outstanding identifiers is what `run_update` tests. -/
def single_fetch_data (o : FetchOracle) (d : Date) (st : FetchState) :
    FetchState × List (String × String) :=
  let r1 := fetch_required_pollutant_ids o d st
  let st2 := download_file_streams o d r1.2 r1.1
  fetch_required_pollutant_ids o d st2

/-! ## Pollutant data processing (`AirQualityDataManager`) -/

/-- The site-name misspelling fixes of
`filter_pollutants_data_by_location` (source lines 795-797). -/
def fix_site_name (s : String) : String :=
  if s = "Chaptal" then "Montpellier Chaptal"
  else if s = "Saint Denis" then "Montpellier St Denis"
  else s

/-- `AirQualityDataManager.clean_columns_pollutants_data` (source lines
774-790): column projection and dtype conversion — the identity on the
already-structured embedded rows. -/
def clean_columns_pollutants_data (rows : List RawRow) : List RawRow := rows

/-- `AirQualityDataManager.filter_pollutants_data_by_location` (source
lines 793-802): fix the misspelled site names, then keep the rows whose
site is a tracked station of the pollutant. -/
def filter_pollutants_data_by_location (rows : List RawRow) (p : String) : List RawRow :=
  (rows.map (fun r => { r with site := fix_site_name r.site })).filter
    (fun r => (STATION_LOCATIONS p).contains r.site)

/-- `AirQualityDataManager.get_previous_day_data` (source lines 692-703):
the rows of the live snapshot for pollutant `p` on the day before `d`. -/
def get_previous_day_data (existing : List Rcd) (d : Date) (p : String) : List Rcd :=
  existing.filter (fun r => r.cat == p && r.ts.date == prev_day d)

/-- `AirQualityDataManager.get_filled_missing_day_data` (source lines
706-718): the previous day of the live snapshot, shifted one day forward,
with a dummy site name, in raw-file shape. -/
def get_filled_missing_day_data (existing : List Rcd) (d : Date) (p : String) :
    List RawRow :=
  (get_previous_day_data existing d p).map
    (fun r => { ts := add_one_day r.ts, polluant := r.cat, site := "Dummy site",
                valeurBrute := r.val })

/-- The per-pollutant loop body of `get_merged_pollutants_data` over a list
of pollutants, in `Option` because a missing backup file raises. -/
def merged_pollutants_aux (existing : List Rcd) (cache : Cache) (d : Date) :
    List String → Option (List RawRow)
  | [] => some []
  | p :: ps =>
    match cache_lookup cache p d with
    | none => none
    | some content =>
      let rows := filter_pollutants_data_by_location
        (clean_columns_pollutants_data content) p
      let rows2 := if rows.isEmpty then get_filled_missing_day_data existing d p
        else rows
      match merged_pollutants_aux existing cache d ps with
      | none => none
      | some rest => some (rows2 ++ rest)

/-- `AirQualityDataManager.get_merged_pollutants_data` (source lines
662-689): read every tracked pollutant backup file of the day (raising —
`none` — when one is missing), clean, filter by location, substitute the
previous live day for a pollutant with no rows at all, and concatenate. -/
def get_merged_pollutants_data (existing : List Rcd) (cache : Cache) (d : Date) :
    Option (List RawRow) :=
  merged_pollutants_aux existing cache d POLLUTANTS

/-- `AirQualityDataManager.get_non_positive_values_replaced_with_nan`
(source lines 813-816). -/
def get_non_positive_values_replaced_with_nan (rows : List RawRow) : List RawRow :=
  rows.map (fun r =>
    { r with valeurBrute := match r.valeurBrute with
        | some v => if v ≤ 0 then none else some v
        | none => none })

/-- The `(Polluant, Datetime)` sort key of a raw pivot cell. -/
def pkey (x : String × Timestamp) : RKey := toLex (x.1.toList, x.2.key)

/-- Ordering of pivot keys. -/
def pairLe (a b : String × Timestamp) : Prop := pkey a ≤ pkey b

instance : DecidableRel pairLe := fun a b =>
  inferInstanceAs (Decidable (pkey a ≤ pkey b))

instance : IsTotal (String × Timestamp) pairLe := ⟨fun a b => le_total (pkey a) (pkey b)⟩

instance : IsTrans (String × Timestamp) pairLe := ⟨fun _ _ _ h1 h2 => le_trans h1 h2⟩

/-- Ascending sort of `(Polluant, Datetime)` pivot keys. -/
def sort_pairs (l : List (String × Timestamp)) : List (String × Timestamp) :=
  List.insertionSort pairLe l

/-- The aggregated value of raw rows at pivot cell `(p, t)`. -/
def raw_value_at (rows : List RawRow) (p : String) (t : Timestamp) : Option ℚ :=
  aggMean ((rows.filter (fun r => r.polluant == p && r.ts == t)).map RawRow.valeurBrute)

/-- `AirQualityDataManager.get_data_averaged_across_sites` (source lines
761-771): pivot on `(Polluant, Datetime)` (sorted index, `dropna = False`),
averaging the concentration over sites, NaN when no site has a value. -/
def get_data_averaged_across_sites (rows : List RawRow) : List Rcd :=
  (sort_pairs ((rows.map (fun r => (r.polluant, r.ts))).dedup)).map
    (fun k => Rcd.mk k.1 k.2 (raw_value_at rows k.1 k.2))

/-- `AirQualityDataManager.get_cleaned_fetched_pollutants_data` (source
lines 722-730): merged raw rows, non-positive concentrations to NaN, then
the site average. -/
def get_cleaned_fetched_pollutants_data (existing : List Rcd) (cache : Cache)
    (d : Date) : Option (List Rcd) :=
  (get_merged_pollutants_data existing cache d).map (fun rows =>
    get_data_averaged_across_sites (get_non_positive_values_replaced_with_nan rows))

/-- `AirQualityDataManager.run_update` (source lines 950-974) acting on the
live snapshot, the fetch state and the staged snapshot: fetch, and only
when the returned outstanding-identifier dict is empty run the merge body —
which reads the backup files (an exception there, modelled by `none`,
propagates to the caller before any save, leaving the staged snapshot
untouched), merges into the staged snapshot, fills the gaps and saves. -/
def run_update (o : FetchOracle) (d : Date) (live : List Rcd) (st : FetchState)
    (staged : List Rcd) : FetchState × List Rcd :=
  let fr := single_fetch_data o d st
  if fr.2.isEmpty then
    match get_cleaned_fetched_pollutants_data live fr.1.cache d with
    | some cleaned =>
      (fr.1, fill_missing_values (add_processed_fetched_data_to_existing staged cleaned))
    | none => (fr.1, staged)
  else (fr.1, staged)

/-- The guard of source line 959: `run_update` enters its merge body
exactly when `single_fetch_data` reports no outstanding download ids. -/
def run_update_merge_attempted (o : FetchOracle) (d : Date) (st : FetchState) : Bool :=
  (single_fetch_data o d st).2.isEmpty

/-! ## Whole-day substitution helpers (`AirQualityDataManager`, source
lines 831-926; not invoked by `run_update`) -/

/-- Lexicographic key of a calendar date. -/
abbrev DKey := Lex (Nat × Lex (Nat × Nat))

/-- The key of a date. -/
def Date.key (d : Date) : DKey := toLex (d.year, toLex (d.month, d.day))

/-- Ordering of `(Polluant, Date)` pivot keys. -/
def dayKeyLe (a b : String × Date) : Prop :=
  toLex (a.1.toList, a.2.key) ≤ toLex (b.1.toList, b.2.key)

instance : DecidableRel dayKeyLe := fun a b =>
  inferInstanceAs (Decidable (toLex (a.1.toList, a.2.key) ≤ toLex (b.1.toList, b.2.key)))

instance : IsTotal (String × Date) dayKeyLe :=
  ⟨fun a b => le_total (toLex (a.1.toList, a.2.key)) (toLex (b.1.toList, b.2.key))⟩

instance : IsTrans (String × Date) dayKeyLe := ⟨fun _ _ _ h1 h2 => le_trans h1 h2⟩

/-- Ascending sort of `(Polluant, Date)` keys. -/
def sort_day_keys (l : List (String × Date)) : List (String × Date) :=
  List.insertionSort dayKeyLe l

/-- The number of NaN concentration rows of pollutant `p` on day `d`. -/
def null_count (fetched : List Rcd) (p : String) (d : Date) : Nat :=
  (fetched.filter (fun r => r.cat == p && r.ts.date == d && r.val.isNone)).length

/-- `AirQualityDataManager.get_days_needing_replacement` (source lines
831-861): `None` when the fetched data has no NaN rows; otherwise the
sorted distinct `(Polluant, day)` pivot keys with at least 12 NaN hourly
values, `None` again when that selection is empty. -/
def get_days_needing_replacement (fetched : List Rcd) : Option (List (String × Date)) :=
  let nullKeys :=
    ((fetched.filter (fun r => r.val.isNone)).map (fun r => (r.cat, r.ts.date))).dedup
  if nullKeys.isEmpty then none
  else
    let toCopy := (sort_day_keys nullKeys).filter
      (fun k => 12 ≤ null_count fetched k.1 k.2)
    if toCopy.isEmpty then none else some toCopy

/-- `AirQualityDataManager.same_day_last_year` (source lines 885-895): one
year earlier, with Feb 29 sent to Feb 28. -/
def same_day_last_year (k : String × Date) : String × Date :=
  (k.1,
    if k.2.month == 2 && k.2.day == 29 then ⟨k.2.year - 1, 2, 28⟩
    else ⟨k.2.year - 1, k.2.month, k.2.day⟩)

/-- `AirQualityDataManager.get_data_without_days_to_replace` (source lines
864-882): drop the fetched rows whose `(Polluant, day)` is marked for
replacement. -/
def get_data_without_days_to_replace (fetched : List Rcd)
    (toCopy : List (String × Date)) : List Rcd :=
  fetched.filter (fun r => !(toCopy.contains (r.cat, r.ts.date)))

/-- Re-dating a copied timestamp onto the replaced day, keeping the
hour-of-day (source lines 917-919). -/
def set_date (t : Timestamp) (d : Date) : Timestamp := ⟨d.year, d.month, d.day, t.hour⟩

/-- The rows copied for one marked `(Polluant, day)` key `k` (the body of
the `for polluant_date in ...` loop, source lines 911-922): the live rows
whose `(Polluant, date)` equals `same_day_last_year k`, re-dated onto
`k`'s day with the hour-of-day kept. -/
def copied_day_rows (existing : List Rcd) (k : String × Date) : List Rcd :=
  (existing.filter (fun r => (r.cat, r.ts.date) == same_day_last_year k)).map
    (fun r => { r with ts := set_date r.ts k.2 })

/-- `AirQualityDataManager.replace_copied_days_data` (source lines
898-926): append, for each marked `(Polluant, day)`, the live rows of the
same pollutant on the same day one year earlier re-dated onto the marked
day, then sort by `(Polluant, Datetime)`. -/
def replace_copied_days_data (existing : List Rcd) (fetchedExcl : List Rcd)
    (toCopy : List (String × Date)) : List Rcd :=
  sort_records (fetchedExcl ++ toCopy.flatMap (copied_day_rows existing))

/-- `AirQualityDataManager.get_data_filled_with_whole_days` (source lines
740-758): fetched data unchanged when no day needs replacement, otherwise
the marked days are dropped and substituted from the live snapshot. -/
def get_data_filled_with_whole_days (existing fetched : List Rcd) : List Rcd :=
  match get_days_needing_replacement fetched with
  | none => fetched
  | some toCopy =>
    replace_copied_days_data existing
      (get_data_without_days_to_replace fetched toCopy) toCopy

/-! ## The update orchestrator (`DataUpdater`) and the bounded
day-by-day advancement loop -/

/-- The serialized content of one snapshot file under
`data/timeseries` (a pickled dataframe). -/
abbrev Blob := List Rcd

/-- The three live snapshot files of `EXISTING_DATA_PATH`: weather
forecast, historical weather, pollutants. -/
structure Files where
  wf : Blob
  hw : Blob
  aq : Blob
deriving DecidableEq

/-- The filesystem as the orchestrator sees it: the live directory and the
optional `temp` staging directory. -/
structure SysState where
  live : Files
  temp : Option Files
deriving DecidableEq

/-- The externally determined outcome of one `update_next_day` call:
the cursor is already past yesterday (returns `False`), the fetch phase
fails (returns `False`), the merge step raises an exception, an exception
raises in the unprotected cursor code, or the day succeeds, transforming
the staged blob of the dataset. -/
inductive DayOutcome where
  | notAvailable : DayOutcome
  | fetchFail : DayOutcome
  | mergeExc : DayOutcome
  | cursorExc : DayOutcome
  | success : (Blob → Blob) → DayOutcome
deriving Inhabited

/-- Whether an outcome makes `update_next_day` return `True`. -/
def DayOutcome.isSuccess : DayOutcome → Bool
  | .success _ => true
  | _ => false

/-- Which outcomes escape `HistoricalWeatherDataManager.update_next_day`
as exceptions: merge exceptions are caught by the handler of
`merge_new_and_existing_data` (source lines 1265-1270) and re-raised by
`handle_error` only under the debug flag (source lines 185-197), while the
cursor code of `update_next_day` (source lines 1275-1285) has no handler,
so an exception there always propagates. -/
def hwRaises (debug : Bool) : DayOutcome → Bool
  | .mergeExc => debug
  | .cursorExc => true
  | _ => false

/-- Which outcomes escape `AirQualityDataManager.update_next_day` as
exceptions: its whole body, cursor code included, sits in one `try` whose
handler calls `handle_error` (source lines 977-1004), so exceptions
propagate only under the debug flag. -/
def aqRaises (debug : Bool) : DayOutcome → Bool
  | .mergeExc => debug
  | .cursorExc => debug
  | _ => false

/-- The `while attempt <= max_attempts and no_fails` loop of
`update_to_yesterday` (source lines 1007-1027 and 1296-1316), with
`max_attempts = 5` supplied as fuel.  Returns the staged blob after the
loop, whether an exception escaped the loop, and the trace of consumed
outcomes — one entry per `update_next_day` call. -/
def updLoop (raisesOn : DayOutcome → Bool) (os : Nat → DayOutcome) :
    Nat → Nat → Blob → Blob × Bool × List DayOutcome
  | 0, _, b => (b, false, [])
  | fuel + 1, i, b =>
    match os i with
    | .success f =>
      let res := updLoop raisesOn os fuel (i + 1) (f b)
      (res.1, res.2.1, .success f :: res.2.2)
    | o => (b, raisesOn o, [o])

/-- `AirQualityDataManager.update_to_yesterday` (source lines 1007-1027):
at most 5 `update_next_day` attempts, stopping at the first one that does
not return `True`. -/
def aq_update_to_yesterday (debug : Bool) (os : Nat → DayOutcome) (b : Blob) :
    Blob × Bool × List DayOutcome :=
  updLoop (aqRaises debug) os 5 0 b

/-- `HistoricalWeatherDataManager.update_to_yesterday` (source lines
1296-1316): textually identical loop. -/
def hw_update_to_yesterday (debug : Bool) (os : Nat → DayOutcome) (b : Blob) :
    Blob × Bool × List DayOutcome :=
  updLoop (hwRaises debug) os 5 0 b

/-- The behaviour of `WeatherForecastDataManager.update_current_data`
(source lines 437-469) for one run: it either raises (it runs without any
handler of its own) or completes, transforming the staged forecast blob
(the skip case is the identity transformation). -/
inductive WFOutcome where
  | exc : WFOutcome
  | ok : (Blob → Blob) → WFOutcome

/-- `DataUpdater.update_all` (source lines 96-133).  `create_temp_data`
(lines 59-67) clears any stale staging directory and copies the live files
into it; the three dataset updates then mutate only the staging copies; on
full completion `copy_temp_data_to_live` (lines 70-78) copies every staged
file over its live counterpart and `clear_temp_data` (lines 81-86) deletes
the staging directory.  Any exception reaching the run-level handler is
logged and — only under the debug flag — re-raised (lines 122-133); the
handler touches no files.  Returns the final filesystem state and whether
the run re-raised. -/
def update_all (debug : Bool) (wfO : WFOutcome) (hwOs aqOs : Nat → DayOutcome)
    (s : SysState) : SysState × Bool :=
  match wfO with
  | .exc => ({ live := s.live, temp := some s.live }, debug)
  | .ok f =>
    let t1 : Files := { s.live with wf := f s.live.wf }
    let hwRes := hw_update_to_yesterday debug hwOs t1.hw
    let t2 : Files := { t1 with hw := hwRes.1 }
    if hwRes.2.1 then ({ live := s.live, temp := some t2 }, debug)
    else
      let aqRes := aq_update_to_yesterday debug aqOs t2.aq
      let t3 : Files := { t2 with aq := aqRes.1 }
      if aqRes.2.1 then ({ live := s.live, temp := some t3 }, debug)
      else ({ live := t3, temp := none }, false)

/-! ## Supporting lemmas for the claims -/

theorem mem_category_order {df : List Rcd} {c : String}
    (h : ∃ r ∈ df, r.cat = c) : c ∈ category_order df := by
  rcases h with ⟨r, hr, rfl⟩
  exact (List.perm_insertionSort _ _).mem_iff.mpr
    (List.mem_dedup.mpr (List.mem_map_of_mem _ hr))

theorem mem_cat_timestamps {df : List Rcd} {c : String} {t : Timestamp}
    (h : ∃ r ∈ df, r.cat = c ∧ r.ts = t) : t ∈ cat_timestamps df c := by
  rcases h with ⟨r, hr, hc, rfl⟩
  exact (List.perm_insertionSort tsLe _).mem_iff.mpr
    (List.mem_dedup.mpr (List.mem_map_of_mem _ (List.mem_filter.mpr ⟨hr, by simp [hc]⟩)))

theorem exists_fill_row {df : List Rcd} {c : String} {t : Timestamp}
    (hc : c ∈ category_order df) (ht : t ∈ cat_timestamps df c) :
    ∃ r ∈ fill_missing_values df, r.cat = c ∧ r.ts = t := by
  rcases List.mem_iff_getElem.mp ht with ⟨i, hi, hgi⟩
  have hlen : i < (fill_block df c).length := by rw [length_fill_block]; exact hi
  refine ⟨(fill_block df c)[i],
    List.mem_flatMap.mpr ⟨c, hc, List.getElem_mem hlen⟩, ?_, ?_⟩
  · rw [fill_block_getElem]
  · rw [fill_block_getElem]; exact hgi

theorem updLoop_length_le (raisesOn : DayOutcome → Bool) (os : Nat → DayOutcome) :
    ∀ fuel i b, (updLoop raisesOn os fuel i b).2.2.length ≤ fuel := by
  intro fuel
  induction fuel with
  | zero => intro i b; simp [updLoop]
  | succ n ih =>
    intro i b
    rw [updLoop]
    cases os i with
    | success f => simpa using ih (i + 1) (f b)
    | notAvailable => simp
    | fetchFail => simp
    | mergeExc => simp
    | cursorExc => simp

theorem updLoop_stop_at_failure (raisesOn : DayOutcome → Bool) (os : Nat → DayOutcome) :
    ∀ fuel i b j,
      j < (updLoop raisesOn os fuel i b).2.2.length →
      ((updLoop raisesOn os fuel i b).2.2[j]!).isSuccess = false →
      (updLoop raisesOn os fuel i b).2.2.length = j + 1 := by
  intro fuel
  induction fuel with
  | zero => intro i b j h; simp [updLoop] at h
  | succ n ih =>
    intro i b j
    simp only [updLoop]
    cases hos : os i with
    | success f =>
      intro h hfail
      simp only [List.length_cons, Nat.add_lt_add_iff_right] at h ⊢
      cases j with
      | zero => simp [DayOutcome.isSuccess] at hfail
      | succ k =>
        simp only [List.getElem!_cons_succ] at hfail
        rw [ih (i + 1) (f b) k (by simpa using h) hfail]
    | notAvailable => intro h hfail; simp at h ⊢; omega
    | fetchFail => intro h hfail; simp at h ⊢; omega
    | mergeExc => intro h hfail; simp at h ⊢; omega
    | cursorExc => intro h hfail; simp at h ⊢; omega

theorem fix_error_values_key (df : List Rcd) (r : Rcd) :
    ({ r with val := match r.val with
        | none => none
        | some v => if v < -10 then mean_val df else some v } : Rcd).key = r.key := rfl

theorem fix_error_values_sorted {df : List Rcd} (h : List.Sorted keyLe df) :
    List.Sorted keyLe (fix_error_values df) := by
  rw [fix_error_values, List.Sorted, List.pairwise_map]
  exact h.imp (fun hab => hab)

theorem fix_error_values_pairs (df : List Rcd) :
    (fix_error_values df).map (fun r => (r.cat, r.ts)) =
      df.map (fun r => (r.cat, r.ts)) := by
  rw [fix_error_values, List.map_map]
  rfl

/-! ## Claim C10: leading-edge gaps are left missing -/

/-- C10: for every input dataframe and category with a leading-edge gap
(a timestamp `t` of category `c` such that every row of the category at or
before `t` is NaN), `fill_missing_values` leaves the value at `(c, t)`
missing in its output — linear interpolation and the pad step only draw on
earlier known values — and the returned snapshot really does still contain
such a missing value. -/
theorem C10_leading_gap_left_missing (df : List Rcd) (c : String) (t : Timestamp)
    (hexist : ∃ r ∈ df, r.cat = c ∧ r.ts = t)
    (hgap : ∀ r ∈ df, r.cat = c → tsLe r.ts t → r.val = none) :
    (∀ r ∈ fill_missing_values df, r.cat = c → r.ts = t → r.val = none) ∧
    (∃ r ∈ fill_missing_values df, r.cat = c ∧ r.ts = t ∧ r.val = none) := by
  refine ⟨fill_missing_values_leading_none df c t hgap, ?_⟩
  rcases exists_fill_row
    (mem_category_order ⟨hexist.choose, hexist.choose_spec.1, hexist.choose_spec.2.1⟩)
    (mem_cat_timestamps hexist) with ⟨r, hr, hc, hts⟩
  exact ⟨r, hr, hc, hts, fill_missing_values_leading_none df c t hgap r hr hc hts⟩

theorem C10_witness :
    (∀ r ∈ fill_missing_values
        [Rcd.mk "A" ⟨2023, 5, 10, 0⟩ none, Rcd.mk "A" ⟨2023, 5, 10, 1⟩ (some 10)],
      r.cat = "A" → r.ts = ⟨2023, 5, 10, 0⟩ → r.val = none) ∧
    (∃ r ∈ fill_missing_values
        [Rcd.mk "A" ⟨2023, 5, 10, 0⟩ none, Rcd.mk "A" ⟨2023, 5, 10, 1⟩ (some 10)],
      r.cat = "A" ∧ r.ts = ⟨2023, 5, 10, 0⟩ ∧ r.val = none) :=
  C10_leading_gap_left_missing _ "A" ⟨2023, 5, 10, 0⟩ (by decide) (by decide)

/-! ## Claim C7: the advancement loop is bounded and stops at failure -/

/-- C7: for every starting snapshot state and every sequence of per-day
outcomes, a single `update_to_yesterday` run (pollutant or historical
weather) performs at most 5 `update_next_day` calls (the returned trace has
one entry per call), and a call that does not report success is the last
call of the run. -/
theorem C7_advancement_bound (debug : Bool) (os : Nat → DayOutcome) (b : Blob) :
    ((aq_update_to_yesterday debug os b).2.2.length ≤ 5 ∧
      ∀ j, j < (aq_update_to_yesterday debug os b).2.2.length →
        ((aq_update_to_yesterday debug os b).2.2[j]!).isSuccess = false →
        (aq_update_to_yesterday debug os b).2.2.length = j + 1) ∧
    ((hw_update_to_yesterday debug os b).2.2.length ≤ 5 ∧
      ∀ j, j < (hw_update_to_yesterday debug os b).2.2.length →
        ((hw_update_to_yesterday debug os b).2.2[j]!).isSuccess = false →
        (hw_update_to_yesterday debug os b).2.2.length = j + 1) :=
  ⟨⟨updLoop_length_le _ os 5 0 b, fun j h hf =>
      updLoop_stop_at_failure _ os 5 0 b j h hf⟩,
    ⟨updLoop_length_le _ os 5 0 b, fun j h hf =>
      updLoop_stop_at_failure _ os 5 0 b j h hf⟩⟩

theorem C7_witness :
    (aq_update_to_yesterday false (fun _ => DayOutcome.fetchFail) []).2.2.length ≤ 5 ∧
    (aq_update_to_yesterday false (fun _ => DayOutcome.fetchFail) []).2.2.length = 0 + 1 :=
  ⟨(C7_advancement_bound false (fun _ => DayOutcome.fetchFail) []).1.1,
    (C7_advancement_bound false (fun _ => DayOutcome.fetchFail) []).1.2 0
      (by decide) (by decide)⟩

/-! ## Claim C8: the historical-weather continuity guard -/

/-- C8: whenever the earliest timestamp of the newly fetched day is not
exactly one hour after the staged snapshot's maximum timestamp (including
the NaT cases of an empty side), the historical-weather merge reports
failure and returns the staged snapshot unchanged; the guard is a total
computation, no exception is raised. -/
theorem C8_continuity_guard (staged newData : List Rcd)
    (hmismatch : min_ts newData ≠ (max_ts staged).map add_one_hour) :
    merge_new_and_existing_data staged (some newData) = (false, staged) := by
  rw [merge_new_and_existing_data, get_merged_new_and_existing_data]
  cases hmax : max_ts staged with
  | none =>
    cases hmin : min_ts newData with
    | none => rfl
    | some firstT => rfl
  | some lastT =>
    cases hmin : min_ts newData with
    | none => rfl
    | some firstT =>
      rw [hmax, hmin] at hmismatch
      simp only [Option.map_some'] at hmismatch
      have hne : firstT ≠ add_one_hour lastT := by simpa using hmismatch
      simp [hne]

theorem C8_witness :
    merge_new_and_existing_data [Rcd.mk "Montpellier" ⟨2023, 5, 10, 0⟩ (some 1)]
        (some [Rcd.mk "Montpellier" ⟨2023, 5, 10, 5⟩ (some 2)]) =
      (false, [Rcd.mk "Montpellier" ⟨2023, 5, 10, 0⟩ (some 1)]) :=
  C8_continuity_guard _ _ (by decide)

/-! ## Claim C9: the pollutant fetch phase is idempotent on a cached day -/

/-- C9: when every tracked pollutant already has a backup file for the
date, `single_fetch_data` performs zero external API calls and leaves the
cache (and the whole fetch state) unchanged, reporting nothing outstanding;
running it a second time is the same no-op. -/
theorem C9_fetch_idempotent (o : FetchOracle) (d : Date) (st : FetchState)
    (hall : ∀ p ∈ POLLUTANTS, download_file_exists st.cache d p = true) :
    single_fetch_data o d st = (st, []) ∧
    single_fetch_data o d (single_fetch_data o d st).1 = (st, []) := by
  have hreq : get_pollutants_to_request st.cache d = [] :=
    List.filter_eq_nil_iff.mpr (fun p hp => by simp [hall p hp])
  have h1 : single_fetch_data o d st = (st, []) := by
    simp [single_fetch_data, fetch_required_pollutant_ids, hreq,
      fetch_pollutant_download_ids, download_file_streams]
  exact ⟨h1, by rw [h1]; exact h1⟩

theorem C9_witness :
    single_fetch_data ⟨fun _ _ => none, fun _ => none⟩ ⟨2024, 3, 5⟩
        ⟨[(("NO2", ⟨2024, 3, 5⟩), []), (("O3", ⟨2024, 3, 5⟩), []),
          (("PM10", ⟨2024, 3, 5⟩), []), (("PM2.5", ⟨2024, 3, 5⟩), []),
          (("SO2", ⟨2024, 3, 5⟩), [])], 0⟩ =
      (⟨[(("NO2", ⟨2024, 3, 5⟩), []), (("O3", ⟨2024, 3, 5⟩), []),
          (("PM10", ⟨2024, 3, 5⟩), []), (("PM2.5", ⟨2024, 3, 5⟩), []),
          (("SO2", ⟨2024, 3, 5⟩), [])], 0⟩, []) :=
  (C9_fetch_idempotent _ _ _ (by decide)).1

/-! ## Claims C4 and C5: ordering and uniqueness after every merge -/

/-- C4: for every merge of every dataset and every pair of input
snapshots, the snapshot saved at the end of the merge is sorted by
`(category, timestamp)` ascending — ascending in the category as well as in
the timestamp.  The forecast merge saves `merge_fetched_and_current_data`,
the pollutant merge saves the filled result of
`add_processed_fetched_data_to_existing` (`run_update`, lines 965-971), and
the historical-weather merge saves the second component of a successful
`merge_new_and_existing_data`; in each pipeline the final sorting pivot of
`fill_missing_values` (and the key-preserving `fix_error_values`)
establishes the order. -/
theorem C4_merge_sorted (fetched current existing processed staged : List Rcd)
    (backup : Option (List Rcd)) (merged : List Rcd) :
    List.Sorted keyLe (merge_fetched_and_current_data fetched current) ∧
    List.Sorted keyLe
      (fill_missing_values (add_processed_fetched_data_to_existing existing processed)) ∧
    (merge_new_and_existing_data staged backup = (true, merged) →
      List.Sorted keyLe merged) := by
  refine ⟨?_, fill_missing_values_sorted _, ?_⟩
  · simp only [merge_fetched_and_current_data]
    exact fill_missing_values_sorted _
  · intro hm
    rw [merge_new_and_existing_data] at hm
    cases hg : get_merged_new_and_existing_data staged backup with
    | none => rw [hg] at hm; simp at hm
    | some m =>
      rw [hg] at hm
      simp only [Prod.mk.injEq, true_and] at hm
      rw [← hm]
      exact fix_error_values_sorted (fill_missing_values_sorted m)

theorem C4_witness :
    List.Sorted keyLe
      [Rcd.mk "M" ⟨2023, 5, 10, 0⟩ (some 1), Rcd.mk "M" ⟨2023, 5, 10, 1⟩ (some 2)] :=
  (C4_merge_sorted [] [] [] [] [Rcd.mk "M" ⟨2023, 5, 10, 0⟩ (some 1)]
    (some [Rcd.mk "M" ⟨2023, 5, 10, 1⟩ (some 2)])
    [Rcd.mk "M" ⟨2023, 5, 10, 0⟩ (some 1), Rcd.mk "M" ⟨2023, 5, 10, 1⟩ (some 2)]).2.2
    (by decide)

/-- C5: for every merge of every dataset and every pair of input snapshots
(the existing snapshot itself having pairwise-distinct
`(category, timestamp)` pairs), the saved snapshot has pairwise-distinct
`(category, timestamp)` pairs; in particular for the historical-weather
merge, which concatenates new and existing records without an explicit
deduplication step — the `(category, Datetime)` pivot of
`fill_missing_values`, run by every pipeline before saving, collapses any
duplicate key. -/
theorem C5_merge_unique (fetched current existing processed staged : List Rcd)
    (backup : Option (List Rcd)) (merged : List Rcd)
    (hcur : (current.map (fun r => (r.cat, r.ts))).Nodup)
    (hex : (existing.map (fun r => (r.cat, r.ts))).Nodup)
    (hstaged : (staged.map (fun r => (r.cat, r.ts))).Nodup) :
    ((merge_fetched_and_current_data fetched current).map
      (fun r => (r.cat, r.ts))).Nodup ∧
    ((fill_missing_values (add_processed_fetched_data_to_existing existing processed)).map
      (fun r => (r.cat, r.ts))).Nodup ∧
    (merge_new_and_existing_data staged backup = (true, merged) →
      (merged.map (fun r => (r.cat, r.ts))).Nodup) := by
  refine ⟨?_, fill_missing_values_keys_nodup _, ?_⟩
  · simp only [merge_fetched_and_current_data]
    exact fill_missing_values_keys_nodup _
  · intro hm
    rw [merge_new_and_existing_data] at hm
    cases hg : get_merged_new_and_existing_data staged backup with
    | none => rw [hg] at hm; simp at hm
    | some m =>
      rw [hg] at hm
      simp only [Prod.mk.injEq, true_and] at hm
      rw [← hm, fix_error_values_pairs]
      exact fill_missing_values_keys_nodup m

theorem C5_witness :
    (([Rcd.mk "M" ⟨2023, 5, 10, 0⟩ (some 1),
        Rcd.mk "M" ⟨2023, 5, 10, 1⟩ (some 2)] : List Rcd).map
      (fun r => (r.cat, r.ts))).Nodup :=
  (C5_merge_unique [] [] [] [] [Rcd.mk "M" ⟨2023, 5, 10, 0⟩ (some 1)]
    (some [Rcd.mk "M" ⟨2023, 5, 10, 1⟩ (some 2)])
    [Rcd.mk "M" ⟨2023, 5, 10, 0⟩ (some 1), Rcd.mk "M" ⟨2023, 5, 10, 1⟩ (some 2)]
    (by decide) (by decide) (by decide)).2.2 (by decide)

/-! ## Claim C1: when is the pollutant merge attempted? -/

theorem merged_pollutants_aux_none {existing : List Rcd} {cache : Cache} {d : Date}
    {p : String} (hmiss : cache_lookup cache p d = none) :
    ∀ {ps : List String}, p ∈ ps →
      merged_pollutants_aux existing cache d ps = none := by
  intro ps hp
  induction ps with
  | nil => cases hp
  | cons q qs ih =>
    rcases List.mem_cons.mp hp with rfl | hq
    · simp [merged_pollutants_aux, hmiss]
    · cases hl : cache_lookup cache q d with
      | none => simp [merged_pollutants_aux, hl]
      | some content => simp [merged_pollutants_aux, hl, ih hq]

/-- Concrete setup refuting C1 as stated: every pollutant except NO2 has a
cached raw file for the date, and the external identifier endpoint answers
every request with a soft failure. -/
def c1Date : Date := ⟨2024, 3, 5⟩

/-- Backup cache holding raw files for four of the five pollutants. -/
def c1Cache : Cache :=
  [(("O3", c1Date), []), (("PM10", c1Date), []),
   (("PM2.5", c1Date), []), (("SO2", c1Date), [])]

/-- An external service whose identifier endpoint always soft-fails. -/
def c1Oracle : FetchOracle := ⟨fun _ _ => none, fun _ => none⟩

/-- C1 counterexample: with NO2's raw file missing and its identifier
request soft-failing, `single_fetch_data` returns an empty outstanding
dict — `fetch_required_pollutant_ids` only lists pollutants whose identifier
request SUCCEEDED — so `run_update` passes its guard and attempts the merge
body even though the tracked pollutant NO2 has no locally cached raw file.
This refutes the claim that the merge is attempted only when every tracked
pollutant has a cached raw file. -/
theorem C1_counterexample :
    run_update_merge_attempted c1Oracle c1Date ⟨c1Cache, 0⟩ = true ∧
    "NO2" ∈ POLLUTANTS ∧
    download_file_exists (single_fetch_data c1Oracle c1Date ⟨c1Cache, 0⟩).1.cache
      c1Date "NO2" = false := by
  decide

/-- C1 amended: the merge body is attempted whenever the post-fetch
re-request returns no outstanding identifiers (which can happen with raw
files still missing, when the identifier requests soft-fail); but whenever
any tracked pollutant's raw file is still missing after the fetch phase,
the merge body fails at the file-read step before any save, so the staged
snapshot is never mutated for that day. -/
theorem C1_amended (o : FetchOracle) (d : Date) (live : List Rcd) (st : FetchState)
    (staged : List Rcd) (p : String) (hp : p ∈ POLLUTANTS)
    (hmiss : download_file_exists (single_fetch_data o d st).1.cache d p = false) :
    (run_update o d live st staged).2 = staged := by
  have hmiss2 : cache_lookup (single_fetch_data o d st).1.cache p d = none := by
    rw [download_file_exists] at hmiss
    cases h : cache_lookup (single_fetch_data o d st).1.cache p d with
    | none => rfl
    | some content => rw [h] at hmiss; simp at hmiss
  simp only [run_update]
  by_cases he : (single_fetch_data o d st).2.isEmpty
  · rw [if_pos he]
    have hnone : get_cleaned_fetched_pollutants_data live
        (single_fetch_data o d st).1.cache d = none := by
      rw [get_cleaned_fetched_pollutants_data, get_merged_pollutants_data,
        merged_pollutants_aux_none hmiss2 hp]
      rfl
    rw [hnone]
  · rw [if_neg he]

theorem C1_witness :
    (run_update c1Oracle c1Date [] ⟨c1Cache, 0⟩
      [Rcd.mk "NO2" ⟨2024, 3, 4, 0⟩ (some 1)]).2 =
    [Rcd.mk "NO2" ⟨2024, 3, 4, 0⟩ (some 1)] :=
  C1_amended c1Oracle c1Date [] ⟨c1Cache, 0⟩ _ "NO2" (by decide) (by decide)

/-! ## Claims C2 and C3: what happens to live files and staging on
failures -/

theorem aqRaises_false (o : DayOutcome) : aqRaises false o = false := by
  cases o <;> rfl

theorem updLoop_no_raise (raisesOn : DayOutcome → Bool)
    (h : ∀ o, raisesOn o = false) (os : Nat → DayOutcome) :
    ∀ fuel i b, (updLoop raisesOn os fuel i b).2.1 = false := by
  intro fuel
  induction fuel with
  | zero => intro i b; rfl
  | succ n ih =>
    intro i b
    simp only [updLoop]
    cases os i with
    | success f => simpa using ih (i + 1) (f b)
    | notAvailable => simp [h]
    | fetchFail => simp [h]
    | mergeExc => simp [h]
    | cursorExc => simp [h]

/-- C2 counterexample: the forecast dataset merges successfully into
staging (its staged file changes), then the historical-weather merge raises
with the debug flag unset; `handle_error` only logs, the per-dataset loop
reports a failed day, `update_all` carries on and COMMITS the staged files,
so the live forecast snapshot is changed after the run.  This refutes the
claim that the copy of staged files over live files is never reached. -/
theorem C2_counterexample :
    (update_all false (WFOutcome.ok (fun _ => [Rcd.mk "x" ⟨2023, 1, 1, 0⟩ none]))
        (fun _ => DayOutcome.mergeExc) (fun _ => DayOutcome.notAvailable)
        ⟨⟨[], [], []⟩, none⟩).1.live ≠ (⟨⟨[], [], []⟩, none⟩ : SysState).live := by
  decide

/-- C2 amended: with the debug flag unset, a merge exception inside a
dataset's advancement loop is handled at the per-dataset boundary and the
run still reaches the commit step — staging is deleted and every staged
file, including the successfully merged forecast, is copied over live; the
live snapshots are unchanged only when the exception reaches the run-level
handler, e.g. when the (handler-less) forecast update itself raises, in
which case nothing is committed. -/
theorem C2_amended (s : SysState) (f : Blob → Blob) (hwOs aqOs : Nat → DayOutcome)
    (hmerge : hwOs 0 = DayOutcome.mergeExc) :
    ((update_all false (WFOutcome.ok f) hwOs aqOs s).1.temp = none ∧
      (update_all false (WFOutcome.ok f) hwOs aqOs s).1.live.wf = f s.live.wf) ∧
    (∀ s2 : SysState, ∀ hwOs2 aqOs2 : Nat → DayOutcome,
      (update_all false WFOutcome.exc hwOs2 aqOs2 s2).1.live = s2.live ∧
      (update_all false WFOutcome.exc hwOs2 aqOs2 s2).1.temp = some s2.live) := by
  constructor
  · have hhw : hw_update_to_yesterday false hwOs s.live.hw =
        (s.live.hw, false, [DayOutcome.mergeExc]) := by
      simp [hw_update_to_yesterday, updLoop, hmerge, hwRaises]
    have haq : ∀ b, (aq_update_to_yesterday false aqOs b).2.1 = false := fun b =>
      updLoop_no_raise _ aqRaises_false aqOs 5 0 b
    constructor <;> simp [update_all, hhw, haq]
  · intro s2 hwOs2 aqOs2
    exact ⟨rfl, rfl⟩

theorem C2_witness :
    (update_all false (WFOutcome.ok (fun _ => []))
      (fun _ => DayOutcome.mergeExc) (fun _ => DayOutcome.notAvailable)
      ⟨⟨[Rcd.mk "x" ⟨2023, 1, 1, 0⟩ none], [], []⟩, none⟩).1.temp = none :=
  ((C2_amended ⟨⟨[Rcd.mk "x" ⟨2023, 1, 1, 0⟩ none], [], []⟩, none⟩ (fun _ => [])
    (fun _ => DayOutcome.mergeExc) (fun _ => DayOutcome.notAvailable) rfl).1).1

/-- C3 counterexample: a run of `update_all` that ends in a handled
run-level failure (the forecast update raises, the debug flag is unset)
returns with the staging directory still present — the run-level handler
only logs, it never calls `clear_temp_data` — refuting the claim that the
staging area is deleted before the run returns. -/
theorem C3_counterexample :
    (update_all false WFOutcome.exc (fun _ => DayOutcome.notAvailable)
      (fun _ => DayOutcome.notAvailable) ⟨⟨[], [], []⟩, none⟩).1.temp ≠ none := by
  decide

/-- C3 amended: on a handled run-level failure the live files are indeed
untouched, but the staging directory is left in place (holding the staged
copies as of the failure); it is cleared only by `create_temp_data` at the
start of the next run.  Both modelled run-level failure sources — the
forecast update raising, and the unprotected cursor code of the
historical-weather `update_next_day` raising — behave this way. -/
theorem C3_amended (s : SysState) (hwOs aqOs : Nat → DayOutcome) (f : Blob → Blob)
    (hcursor : hwOs 0 = DayOutcome.cursorExc) :
    (update_all false WFOutcome.exc hwOs aqOs s =
      ({ live := s.live, temp := some s.live }, false)) ∧
    ((update_all false (WFOutcome.ok f) hwOs aqOs s).1.live = s.live ∧
      (update_all false (WFOutcome.ok f) hwOs aqOs s).1.temp =
        some { s.live with wf := f s.live.wf }) := by
  refine ⟨rfl, ?_⟩
  have hhw : hw_update_to_yesterday false hwOs s.live.hw =
      (s.live.hw, true, [DayOutcome.cursorExc]) := by
    simp [hw_update_to_yesterday, updLoop, hcursor, hwRaises]
  constructor <;> simp [update_all, hhw]

theorem C3_witness :
    (update_all false (WFOutcome.ok (fun b => b)) (fun _ => DayOutcome.cursorExc)
      (fun _ => DayOutcome.notAvailable) ⟨⟨[], [], []⟩, none⟩).1.live =
    (⟨[], [], []⟩ : Files) :=
  (C3_amended ⟨⟨[], [], []⟩, none⟩ (fun _ => DayOutcome.cursorExc)
    (fun _ => DayOutcome.notAvailable) (fun b => b) rfl).2.1

/-! ## Claim C6: whole-day substitution -/

/-- The rows of pollutant `p` on day `d`. -/
def day_filter (p : String) (d : Date) (r : Rcd) : Bool :=
  r.cat == p && r.ts.date == d

theorem copied_day_rows_keys {existing : List Rcd} {k : String × Date} {r : Rcd}
    (hr : r ∈ copied_day_rows existing k) : r.cat = k.1 ∧ r.ts.date = k.2 := by
  rcases List.mem_map.mp hr with ⟨r0, hr0, rfl⟩
  rcases List.mem_filter.mp hr0 with ⟨_, hcond⟩
  rw [beq_iff_eq] at hcond
  refine ⟨?_, rfl⟩
  have h1 := congrArg Prod.fst hcond
  simpa [same_day_last_year] using h1

theorem copied_day_rows_filter_self (existing : List Rcd) (p : String) (d : Date) :
    (copied_day_rows existing (p, d)).filter (day_filter p d) =
      copied_day_rows existing (p, d) :=
  List.filter_eq_self.mpr (fun r hr => by
    rcases copied_day_rows_keys hr with ⟨hc, hd⟩
    simp [day_filter, hc, hd])

theorem copied_day_rows_filter_ne (existing : List Rcd) (p : String) (d : Date)
    {k : String × Date} (hne : k ≠ (p, d)) :
    (copied_day_rows existing k).filter (day_filter p d) = [] :=
  List.filter_eq_nil_iff.mpr (fun r hr hpred => by
    rcases copied_day_rows_keys hr with ⟨hc, hd⟩
    rw [day_filter, Bool.and_eq_true, beq_iff_eq, beq_iff_eq] at hpred
    apply hne
    have h1 : k.1 = p := by rw [← hc, hpred.1]
    have h2 : k.2 = d := by rw [← hd, hpred.2]
    rw [← h1, ← h2])

theorem filter_flatMap_not_mem (existing : List Rcd) (p : String) (d : Date)
    {l : List (String × Date)} (hnot : (p, d) ∉ l) :
    (l.flatMap (copied_day_rows existing)).filter (day_filter p d) = [] :=
  List.filter_eq_nil_iff.mpr (fun r hr hpred => by
    rcases List.mem_flatMap.mp hr with ⟨k, hk, hrk⟩
    rcases copied_day_rows_keys hrk with ⟨hc, hd⟩
    rw [day_filter, Bool.and_eq_true, beq_iff_eq, beq_iff_eq] at hpred
    apply hnot
    have h1 : k.1 = p := by rw [← hc, hpred.1]
    have h2 : k.2 = d := by rw [← hd, hpred.2]
    rw [← h1, ← h2, Prod.mk.eta]
    exact hk)

theorem filter_flatMap_mem (existing : List Rcd) (p : String) (d : Date) :
    ∀ {l : List (String × Date)}, l.Nodup → (p, d) ∈ l →
      (l.flatMap (copied_day_rows existing)).filter (day_filter p d) =
        copied_day_rows existing (p, d) := by
  intro l
  induction l with
  | nil => intro _ h; cases h
  | cons k ks ih =>
    intro hnd hmem
    rw [List.flatMap_cons, List.filter_append]
    rcases List.mem_cons.mp hmem with heq | hks
    · rw [← heq] at hnd ⊢
      rw [copied_day_rows_filter_self,
        filter_flatMap_not_mem existing p d (List.nodup_cons.mp hnd).1,
        List.append_nil]
    · have hkne : k ≠ (p, d) := by
        intro h; rw [h] at hnd; exact (List.nodup_cons.mp hnd).1 hks
      rw [copied_day_rows_filter_ne existing p d hkne, List.nil_append,
        ih (List.nodup_cons.mp hnd).2 hks]

theorem days_needing_spec {fetched : List Rcd} {toCopy : List (String × Date)}
    (h : get_days_needing_replacement fetched = some toCopy) :
    toCopy.Nodup ∧ ∀ k ∈ toCopy, 12 ≤ null_count fetched k.1 k.2 := by
  simp only [get_days_needing_replacement] at h
  split at h
  · exact absurd h (by simp)
  · split at h
    · exact absurd h (by simp)
    · rw [Option.some.injEq] at h
      subst h
      refine ⟨List.Nodup.filter _
        ((List.perm_insertionSort _ _).nodup_iff.mpr (List.nodup_dedup _)), ?_⟩
      intro k hk
      have := (List.mem_filter.mp hk).2
      exact of_decide_eq_true this

theorem days_needing_mem {fetched : List Rcd} {p : String} {d : Date}
    (hc : 12 ≤ null_count fetched p d) :
    ∃ toCopy, get_days_needing_replacement fetched = some toCopy ∧ (p, d) ∈ toCopy := by
  have hpos : 0 < null_count fetched p d := by omega
  rw [null_count] at hpos
  obtain ⟨r, hr⟩ := List.exists_mem_of_length_pos hpos
  rcases List.mem_filter.mp hr with ⟨hrdf, hcond⟩
  rw [Bool.and_eq_true, Bool.and_eq_true, beq_iff_eq, beq_iff_eq] at hcond
  have hkeymem : (p, d) ∈
      ((fetched.filter (fun s => s.val.isNone)).map (fun s => (s.cat, s.ts.date))).dedup := by
    rw [List.mem_dedup]
    refine List.mem_map.mpr ⟨r, List.mem_filter.mpr ⟨hrdf, hcond.2⟩, ?_⟩
    rw [hcond.1.1, hcond.1.2]
  have hsorted : (p, d) ∈ sort_day_keys
      ((fetched.filter (fun s => s.val.isNone)).map (fun s => (s.cat, s.ts.date))).dedup :=
    (List.perm_insertionSort _ _).mem_iff.mpr hkeymem
  have hmemf : (p, d) ∈ (sort_day_keys
      ((fetched.filter (fun s => s.val.isNone)).map (fun s => (s.cat, s.ts.date))).dedup).filter
      (fun k => 12 ≤ null_count fetched k.1 k.2) :=
    List.mem_filter.mpr ⟨hsorted, by simpa using hc⟩
  have hne1 : ((fetched.filter (fun s => s.val.isNone)).map
      (fun s => (s.cat, s.ts.date))).dedup.isEmpty = false := by
    rw [List.isEmpty_eq_false]
    exact List.ne_nil_of_mem hkeymem
  have hne2 : ((sort_day_keys
      ((fetched.filter (fun s => s.val.isNone)).map (fun s => (s.cat, s.ts.date))).dedup).filter
      (fun k => 12 ≤ null_count fetched k.1 k.2)).isEmpty = false := by
    rw [List.isEmpty_eq_false]
    exact List.ne_nil_of_mem hmemf
  refine ⟨_, ?_, hmemf⟩
  simp only [get_days_needing_replacement, hne1, hne2, Bool.false_eq_true, if_false]

theorem without_days_filter_nil {fetched : List Rcd} {toCopy : List (String × Date)}
    {p : String} {d : Date} (hmem : (p, d) ∈ toCopy) :
    (get_data_without_days_to_replace fetched toCopy).filter (day_filter p d) = [] := by
  rw [get_data_without_days_to_replace, List.filter_filter]
  apply List.filter_eq_nil_iff.mpr
  intro r _ hpred
  rw [Bool.and_eq_true] at hpred
  obtain ⟨hP, hQ⟩ := hpred
  rw [day_filter, Bool.and_eq_true, beq_iff_eq, beq_iff_eq] at hP
  rw [hP.1, hP.2] at hQ
  rw [Bool.not_eq_eq_eq_not, Bool.not_true] at hQ
  rw [show toCopy.contains (p, d) = List.elem (p, d) toCopy from rfl,
    List.elem_eq_mem, decide_eq_false_iff_not] at hQ
  exact hQ hmem

theorem without_days_filter_eq {fetched : List Rcd} {toCopy : List (String × Date)}
    {p : String} {d : Date} (hnot : (p, d) ∉ toCopy) :
    (get_data_without_days_to_replace fetched toCopy).filter (day_filter p d) =
      fetched.filter (day_filter p d) := by
  rw [get_data_without_days_to_replace, List.filter_filter]
  apply List.filter_congr
  intro r _
  by_cases hP : day_filter p d r = true
  · have h1 := hP
    rw [day_filter, Bool.and_eq_true, beq_iff_eq, beq_iff_eq] at h1
    have h2 : toCopy.contains (r.cat, r.ts.date) = false := by
      rw [h1.1, h1.2, show toCopy.contains (p, d) = List.elem (p, d) toCopy from rfl,
        List.elem_eq_mem, decide_eq_false_iff_not]
      exact hnot
    rw [hP, h2]
    rfl
  · rw [Bool.not_eq_true] at hP
    rw [hP]
    rfl

/-- C6 amended: the substitution helpers implement exactly the claimed
replacement — for every `(pollutant, day)` with at least 12 NaN hourly
values in the fetched data, `get_data_filled_with_whole_days` replaces that
day's fetched rows with the live rows of the same pollutant on the same
calendar day one year earlier (Feb 29 mapped to Feb 28) re-dated onto the
day with the hour-of-day kept, and a day with fewer than 12 NaN values
keeps its fetched rows — but these helpers are never invoked by
`run_update`'s merge pipeline, so the merge result itself keeps severely
incomplete days as fetched (see the counterexample). -/
theorem C6_substitution (existing fetched : List Rcd) (p : String) (d : Date) :
    (12 ≤ null_count fetched p d →
      ((get_data_filled_with_whole_days existing fetched).filter (day_filter p d)).Perm
        (copied_day_rows existing (p, d))) ∧
    (null_count fetched p d < 12 →
      ((get_data_filled_with_whole_days existing fetched).filter (day_filter p d)).Perm
        (fetched.filter (day_filter p d))) := by
  constructor
  · intro hc
    obtain ⟨toCopy, hsome, hmem⟩ := days_needing_mem hc
    obtain ⟨hnd, _⟩ := days_needing_spec hsome
    simp only [get_data_filled_with_whole_days, hsome, replace_copied_days_data]
    refine ((List.perm_insertionSort keyLe _).filter (day_filter p d)).trans ?_
    rw [List.filter_append, without_days_filter_nil hmem, List.nil_append,
      filter_flatMap_mem existing p d hnd hmem]
  · intro hlt
    cases hsome : get_days_needing_replacement fetched with
    | none =>
      simp only [get_data_filled_with_whole_days, hsome]
      exact List.Perm.refl _
    | some toCopy =>
      obtain ⟨_, hcount⟩ := days_needing_spec hsome
      have hnot : (p, d) ∉ toCopy := fun hmem =>
        absurd (hcount _ hmem) (by simpa using Nat.not_le_of_lt hlt)
      simp only [get_data_filled_with_whole_days, hsome, replace_copied_days_data]
      refine ((List.perm_insertionSort keyLe _).filter (day_filter p d)).trans ?_
      rw [List.filter_append, filter_flatMap_not_mem existing p d hnot,
        List.append_nil, without_days_filter_eq hnot]

/-- The fetched pollutant day of the C6 witness: 12 NaN hours, 12 valued
hours. -/
def c6Fetched : List Rcd :=
  (List.range 24).map (fun h =>
    Rcd.mk "NO2" ⟨2023, 5, 10, h⟩ (if h < 12 then none else some 5))

/-- The date under update in the C6 scenario. -/
def c6Date : Date := ⟨2023, 5, 10⟩

theorem C6_witness :
    ((get_data_filled_with_whole_days [Rcd.mk "NO2" ⟨2022, 5, 10, 0⟩ (some 99)]
        c6Fetched).filter (day_filter "NO2" c6Date)).Perm
      (copied_day_rows [Rcd.mk "NO2" ⟨2022, 5, 10, 0⟩ (some 99)] ("NO2", c6Date)) :=
  (C6_substitution [Rcd.mk "NO2" ⟨2022, 5, 10, 0⟩ (some 99)] c6Fetched "NO2" c6Date).1
    (by decide)

/-- The raw NO2 backup file of the C6 counterexample: 24 hourly rows at a
tracked station, 12 valued and 12 NaN. -/
def c6NO2rows : List RawRow :=
  (List.range 24).map (fun h =>
    ⟨⟨2023, 5, 10, h⟩, "NO2", "Montpellier Chaptal", if h < 12 then some 5 else none⟩)

/-- A one-row raw backup file for one of the other pollutants. -/
def c6row (p site : String) : List RawRow := [⟨⟨2023, 5, 10, 0⟩, p, site, some 1⟩]

/-- A fully cached day: every tracked pollutant has a raw backup file. -/
def c6Cache : Cache :=
  [(("NO2", c6Date), c6NO2rows),
   (("O3", c6Date), c6row "O3" "Montpellier Prés d\u0027Arènes"),
   (("PM10", c6Date), c6row "PM10" "Pompignane"),
   (("PM2.5", c6Date), c6row "PM2.5" "Pompignane"),
   (("SO2", c6Date), c6row "SO2" "MARSEILLE 5 AVENUES")]

/-- The live snapshot: it holds NO2 data for the same calendar day one
year earlier (value 99 at hour 0), so the claimed substitution content is
non-empty and distinguishable. -/
def c6Live : List Rcd := [Rcd.mk "NO2" ⟨2022, 5, 10, 0⟩ (some 99)]

/-- No external traffic is needed: the cache is complete. -/
def c6Oracle : FetchOracle := ⟨fun _ _ => none, fun _ => none⟩

/-- C6 counterexample: the NO2 day has exactly 12 NaN hourly values in the
cleaned fetched data, yet the staged snapshot produced by `run_update`
keeps 24 NO2 rows for that day (the fetched values, gap-filled), not the
single prior-year row the claimed substitution would put in their place —
`run_update` never calls the whole-day-substitution helpers. -/
theorem C6_counterexample :
    12 ≤ null_count ((get_cleaned_fetched_pollutants_data c6Live c6Cache c6Date).getD [])
        "NO2" c6Date ∧
    ((run_update c6Oracle c6Date c6Live ⟨c6Cache, 0⟩ []).2.filter
      (day_filter "NO2" c6Date)).length = 24 ∧
    (copied_day_rows c6Live ("NO2", c6Date)).length = 1 ∧
    (run_update c6Oracle c6Date c6Live ⟨c6Cache, 0⟩ []).2.filter (day_filter "NO2" c6Date) ≠
      copied_day_rows c6Live ("NO2", c6Date) := by
  decide

end AirQuality
